import Mathlib

/-!
Verification of the etesync calendar component core: the property-tree
parser (helpers.py), the ISO-8601 duration parser, and the event evaluator
(calendar.py: delta, next_event, is_in_range, is_all_day, start and end
accessors). Python strings are modelled as lists of characters, Python
timedeltas as integers counting seconds, and instants on the abstract
timeline as integers counting seconds from a per-theorem epoch.
-/

/-- Python strings are modelled as lists of characters. -/
abbrev PyStr := List Char

/-- Convert a Lean string literal to the model type. -/
def pys (s : String) : PyStr := s.toList

/-- Model of Python str.lower; the data in this repository is ASCII. -/
def pyLower (s : PyStr) : PyStr := s.map Char.toLower

/-- Model of Python s.startswith(p). -/
def pyStartsWith (s p : PyStr) : Bool := p.isPrefixOf s

/-- Model of the Python membership test c in s, for a one-character needle. -/
def pyContainsChar (s : PyStr) (c : Char) : Bool := s.contains c

/-- Model of Python s.split(c) with a one-character separator and no split
limit: the result always has one more part than there are separators, and
splitting the empty string yields one empty part. -/
def pySplit (c : Char) : PyStr → List PyStr
  | [] => [[]]
  | x :: xs =>
    if x = c then [] :: pySplit c xs
    else
      match pySplit c xs with
      | g :: gs => (x :: g) :: gs
      | [] => [[x]]

/-- Model of Python s.split(c, 1): at most one split, at the first separator. -/
def pySplit1 (c : Char) : PyStr → List PyStr
  | [] => [[]]
  | x :: xs =>
    if x = c then [[], xs]
    else
      match pySplit1 c xs with
      | g :: gs => (x :: g) :: gs
      | [] => [[x]]

/-- Model of Python int(s) for the strings built inside the parsers: defined
when s is a nonempty all-digit string, and signalling ValueError (none)
otherwise, as int raises on the empty string. -/
def pyInt? (s : PyStr) : Option Nat :=
  if s.isEmpty || !s.all Char.isDigit then none
  else some (s.foldl (fun a c => a * 10 + (c.toNat - 48)) 0)

/-- The Python exceptions the modelled code can raise. -/
inductive PErr : Type where
  | indexError
  | attributeError
  | typeError
  | valueError
  | keyError
  deriving DecidableEq

/-- A value stored in the parsed property tree: a scalar string, the
timezone-qualified dict built by _parse_keyed_timezone, a list grown from
repeated keys, or a nested node from a begin block or an rrule value. -/
inductive PVal : Type where
  | str : PyStr → PVal
  | timed : PyStr → PyStr → PVal
  | vlist : List PVal → PVal
  | node : List (PyStr × PVal) → PVal

/-- A property-tree node: a Python dict modelled as an association list in
insertion order. -/
abbrev Node := List (PyStr × PVal)

/-- Model of Python d.get(k): the first binding of k, if any. -/
def lookupNode : Node → PyStr → Option PVal
  | [], _ => none
  | (k1, v1) :: rest, k => if k1 = k then some v1 else lookupNode rest k

/-- Model of Python dict assignment d[k] = v: replace the first binding of k
in place, else append a new binding. -/
def assign : Node → PyStr → PVal → Node
  | [], k, v => [(k, v)]
  | (k1, v1) :: rest, k, v => if k1 = k then (k, v) :: rest else (k1, v1) :: assign rest k v

/-- Python truthiness of result.get(key): None, the empty string, the empty
list and the empty dict are falsy; everything else stored in a node is
truthy (the timezone dict always has two keys). -/
def truthy : Option PVal → Bool
  | none => false
  | some (.str s) => !s.isEmpty
  | some (.timed _ _) => true
  | some (.vlist xs) => !xs.isEmpty
  | some (.node n) => !n.isEmpty

/-- The promote-on-second-write step of _parse: a stored list is the only
stored value with a callable append attribute and is appended to; any other
stored value is replaced by the two-element list [old, new]. -/
def pyAppendOrPromote (old v : PVal) : PVal :=
  match old with
  | .vlist xs => .vlist (xs ++ [v])
  | w => .vlist [w, v]

/-- The insertion step of _parse for a data key, helpers.py lines 39-47: the
promotion branch is guarded by the truthiness of result.get(key), so a falsy
stored value is overwritten rather than promoted to a list. -/
def insertPair (res : Node) (k : PyStr) (v : PVal) : Node :=
  match lookupNode res k with
  | some old => if truthy (some old) then assign res k (pyAppendOrPromote old v) else assign res k v
  | none => assign res k v

/-- Model of _parse_keyed_timezone, helpers.py lines 61-73. The key this
function receives was already lower-cased by _parse (line 26 runs before the
dtstart check on line 33). The key is split once on the first semicolon and
the timezone id is the part after the last equals sign of the suffix. -/
def parse_keyed_timezone (k : PyStr) (v : PyStr) : PyStr × PVal :=
  if !pyContainsChar k ';' || !pyContainsChar k '=' then (k, .str v)
  else
    let splitted := pySplit1 ';' k
    let timezone := (pySplit '=' (splitted.getLastD [])).getLastD []
    (splitted.headD [], .timed timezone v)

/-- One segment step of _parse_repeating: seg.split('=', 1) has a single
part exactly when the separator does not occur, and split[1] then raises
IndexError. Both sides are lower-cased and stored by plain assignment. -/
def parseRepeatingGo : List PyStr → Node → Except PErr Node
  | [], res => .ok res
  | seg :: rest, res =>
    match pySplit1 '=' seg with
    | [] => .error .indexError
    | [_] => .error .indexError
    | k :: tail :: _ => parseRepeatingGo rest (assign res (pyLower k) (.str (pyLower tail)))

/-- Model of _parse_repeating, helpers.py lines 51-58. -/
def parse_repeating (v : PyStr) : Except PErr Node :=
  parseRepeatingGo (pySplit ';' v) []

/-- An input entry: the list produced by splitting one raw line on the first
colon. Well-formed entries have exactly two elements; anything else is
skipped by _parse. -/
abbrev Entry := List PyStr

/-- Model of what happens when the shared iterator is exhausted inside
nested _parse calls: each open recursive call returns the node built so far,
and its parent stores it under the pending begin key, cascading outward. -/
def closeStack : Node → List (PyStr × Node) → Node
  | acc, [] => acc
  | acc, (bk, parent) :: stack => closeStack (assign parent bk (.node acc)) stack

/-- Model of _parse, helpers.py lines 19-48. The source recurses on a shared
mutable iterator; that is rendered here as a single left-to-right pass with
an explicit stack of open scopes. A begin entry pushes the current node and
starts a fresh child keyed by the lower-cased value; an end entry pops the
stack and stores the child under the pending begin key by plain assignment,
exactly as the return value of the recursive call is stored in the source;
an end with no open scope returns the current node and discards the rest of
the input, as the top-level _parse call does. The key is lower-cased before
every other test, so the dtstart and rrule handling see the lower-cased key. -/
def parseLoop : List Entry → Node → List (PyStr × Node) → Except PErr Node
  | [], acc, stack => .ok (closeStack acc stack)
  | [k0, v] :: rest, acc, stack =>
    let k := pyLower k0
    if k = pys "begin" then
      parseLoop rest [] ((pyLower v, acc) :: stack)
    else if k = pys "end" then
      match stack with
      | [] => .ok acc
      | (bk, parent) :: stack2 => parseLoop rest (assign parent bk (.node acc)) stack2
    else
      let kv := if pyStartsWith k (pys "dtstart") || pyStartsWith k (pys "dtend")
                then parse_keyed_timezone k v else (k, .str v)
      if kv.1 = pys "rrule" then
        match parse_repeating v with
        | .error e => .error e
        | .ok m => parseLoop rest (insertPair acc kv.1 (.node m)) stack
      else
        parseLoop rest (insertPair acc kv.1 kv.2) stack
  | _ :: rest, acc, stack => parseLoop rest acc stack

/-- Model of parse, helpers.py lines 13-15. -/
def parse (entries : List Entry) : Except PErr Node := parseLoop entries [] []

/-- Accumulator state of the ISO-8601 duration scan in
parse_iso8601_duration (helpers.py lines 108-167) and the identical
EteSyncEvent._parse_duration (calendar.py lines 492-549). -/
structure DurAcc where
  years : Nat
  months : Nat
  weeks : Nat
  days : Nat
  hours : Nat
  minutes : Nat
  seconds : Nat
  period : Bool
  number : PyStr
  deriving DecidableEq

/-- The initial accumulator: all components zero, period mode off, empty
digit buffer. -/
def durInit : DurAcc := ⟨0, 0, 0, 0, 0, 0, 0, false, []⟩

/-- One character step of the duration scan: P enters period mode, T leaves
it, a qualifier letter commits the digit buffer to its component (M means
months in period mode and minutes otherwise; int of an empty buffer raises
ValueError), a digit extends the buffer, anything else is ignored. -/
def durStep (acc : DurAcc) (c : Char) : Except PErr DurAcc :=
  if c = 'P' then .ok { acc with period := true }
  else if c = 'T' then .ok { acc with period := false }
  else if pyContainsChar (pys "YWDHMS") c then
    match pyInt? acc.number with
    | none => .error .valueError
    | some n =>
      let acc2 :=
        if c = 'Y' then { acc with years := n }
        else if c = 'W' then { acc with weeks := n }
        else if c = 'D' then { acc with days := n }
        else if c = 'H' then { acc with hours := n }
        else if c = 'S' then { acc with seconds := n }
        else if acc.period then { acc with months := n }
        else { acc with minutes := n }
      .ok { acc2 with number := [] }
  else if c.isDigit then .ok { acc with number := acc.number ++ [c] }
  else .ok acc

/-- The full left-to-right duration scan. -/
def scanDuration (s : PyStr) : Except PErr DurAcc :=
  s.foldlM durStep durInit

/-- Model of parse_iso8601_duration, helpers.py lines 108-167: None input
yields None, otherwise the scanned components are collapsed to a timedelta
given as (total days, total seconds); months are recorded but excluded from
the totals. -/
def parse_iso8601_duration (s : Option PyStr) : Except PErr (Option (Nat × Nat)) :=
  match s with
  | none => .ok none
  | some t =>
    match scanDuration t with
    | .error e => .error e
    | .ok acc =>
      .ok (some (acc.years * 365 + acc.weeks * 7 + acc.days,
                 acc.hours * 60 * 60 + acc.minutes * 60 + acc.seconds))

/-- Python timedelta attribute d.seconds on a whole-second timedelta d given
as a signed total of seconds: the normalized seconds component, always in
[0, 86400). For d = minus one hour this is 82800, not -3600. -/
def tdSeconds (d : Int) : Int := d % 86400

/-- datetime.timedelta.max at whole-second resolution. -/
def tdMax : Int := 999999999 * 86400 + 86399

/-- datetime.timedelta.min at whole-second resolution. -/
def tdMin : Int := -999999999 * 86400

/-- Recurrence frequency as read from the rrule freq entry. The monthly and
yearly branches of the source use calendar-aware relativedelta steps that do
not live on the abstract integer timeline, so this model covers the daily
and weekly branches and the unsupported-frequency fallback; the claims under
verification use only the weekly and non-recurring paths. -/
inductive Freq : Type where
  | daily
  | weekly
  | unsupported
  deriving DecidableEq

/-- The fixed interval, in seconds, for the modelled frequencies. -/
def freqInterval : Freq → Option Int
  | .daily => some 86400
  | .weekly => some 604800
  | .unsupported => none

/-- An event as the evaluator sees it: start and end instants in seconds on
the abstract timeline, the recurrence flag, the rrule frequency, and the
value of the duration property (none when the event has no DURATION entry,
in which case the Python property returns None). -/
structure EvtModel where
  start : Int
  end_ : Int
  recurring : Bool
  freq : Freq
  duration : Option Int
  deriving DecidableEq

/-- Model of EteSyncEvent.datetime_in_event, calendar.py lines 315-329:
start and end are never None in the model, so this is the interval test
start less-or-equal dt less-than end. -/
def datetime_in_event (e : EvtModel) (dt : Int) : Bool :=
  decide (e.start ≤ dt) && decide (dt < e.end_)

/-- Model of EteSyncEvent.best_delta, calendar.py lines 383-411: branches on
the timedelta seconds component of each side, which is never negative, so
the both-negative branch is dead and whole-day timedeltas fall through to
the final return of the right argument. -/
def best_delta (l r : Int) : Int :=
  let ls := tdSeconds l
  let rs := tdSeconds r
  if ls < 0 && rs < 0 then (if ls > rs then l else r)
  else if ls > 0 && rs > 0 then (if ls > rs then r else l)
  else if ls > 0 then l
  else r

/-- The recurring while loop of EteSyncEvent.delta, calendar.py lines
356-374, with fuel (the loop terminates because start strictly grows by the
positive interval toward dt, and every caller passes enough fuel). The start
is advanced by the interval before anything else, so the occurrence at the
event start itself is never processed; the loop then either returns zero as
soon as a candidate occurrence ends after dt, or accumulates best_delta and
breaks only after processing a start that already lies past the event end.
The returned list records the candidate occurrence starts the loop body
processed, in order; adding the interval to a None duration raises
TypeError on the first iteration. -/
def recurringScan : Nat → Int → Option Int → Int → Int → Int → Int → Except PErr (Int × List Int)
  | 0, _, _, _, _, _, best => .ok (best, [])
  | fuel + 1, interval, duration, eventEnd, dt, start, best =>
    if start < dt then
      match duration with
      | none => .error .typeError
      | some dur =>
        let s := start + interval
        let e := s + dur
        if e > dt then .ok (0, [s])
        else
          let d := best_delta (s - dt) (e - dt)
          let b := best_delta best d
          if s > eventEnd then .ok (b, [s])
          else
            match recurringScan fuel interval (some dur) eventEnd dt s b with
            | .error err => .error err
            | .ok (r, starts) => .ok (r, s :: starts)
    else .ok (best, [])

/-- Fuel that dominates the iteration count of the recurring loop: both
modelled intervals are at least one day, so the loop runs at most
(dt - start) / 86400 + 1 times. -/
def deltaFuel (e : EvtModel) (dt : Int) : Nat := (dt - e.start).toNat / 86400 + 2

/-- Model of EteSyncEvent.delta, calendar.py lines 331-381. Recurring: an
unsupported frequency returns timedelta.min, otherwise the recurring scan
runs from the event start with best_delta initialized to timedelta.min.
Non-recurring: zero when dt falls inside the event, the negative start
minus dt when the event started before dt, and otherwise end minus dt. -/
def delta (e : EvtModel) (dt : Int) : Except PErr Int :=
  if e.recurring then
    match freqInterval e.freq with
    | none => .ok tdMin
    | some interval =>
      match recurringScan (deltaFuel e dt) interval e.duration e.end_ dt e.start tdMin with
      | .error err => .error err
      | .ok (b, _) => .ok b
  else
    if datetime_in_event e dt then .ok 0
    else if e.start < dt then .ok (e.start - dt)
    else .ok (e.end_ - dt)

/-- The scan of EteSyncCalendar.next_event, calendar.py lines 204-223, over
the remaining events, carrying the best candidate and its timedelta (an
exception raised by delta propagates). An event whose delta has seconds
component zero is returned at once; otherwise an event whose delta has a
positive seconds component becomes the candidate when its delta is below
the carried one under full timedelta comparison. -/
def nextEventGo : List EvtModel → Int → Option EvtModel → Int → Except PErr (Option EvtModel)
  | [], _, best, _ => .ok best
  | e :: rest, now, best, bestD =>
    match delta e now with
    | .error err => .error err
    | .ok d =>
      if tdSeconds d = 0 then .ok (some e)
      else if tdSeconds d > 0 then
        if d < bestD then nextEventGo rest now (some e) d
        else nextEventGo rest now best bestD
      else nextEventGo rest now best bestD

/-- Model of EteSyncCalendar.next_event: the scan starts with no candidate
and delta initialized to timedelta.max. -/
def next_event (events : List EvtModel) (now : Int) : Except PErr (Option EvtModel) :=
  nextEventGo events now none tdMax

/-- The non-recurring branch of EteSyncEvent.is_in_range, calendar.py line
459: the source returns start greater-than end_date and end less-than
start_date. The recurring branch (lines 418-457) is a separate code path
not modelled here. -/
def is_in_range_nonrecurring (e : EvtModel) (startDate endDate : Int) : Bool :=
  decide (e.start > endDate) && decide (e.end_ < startDate)

/-- Interval intersection of the occurrence [occStart, occEnd) with the
query range [startDate, endDate), as the spec defines overlap: true unless
the occurrence ends at or before the range start or starts at or after the
range end. -/
def overlapsSpec (occStart occEnd startDate endDate : Int) : Bool :=
  decide (occStart < endDate) && decide (startDate < occEnd)

/-- Expansion as the claim describes it: starting from the event start,
emit an occurrence and advance by the interval while the current start is
below the end bound; written with fuel for structural recursion. -/
def expandWhileSpec : Nat → Int → Int → Int → List Int
  | 0, _, _, _ => []
  | fuel + 1, interval, bound, start =>
    if start < bound then start :: expandWhileSpec fuel interval bound (start + interval)
    else []

/-- The claim-side expansion with enough fuel for a positive interval. -/
def expandOccurrencesSpec (interval bound start : Int) : List Int :=
  expandWhileSpec ((bound - start).toNat + 1) interval bound start

/-- A Python value that can appear in the comparisons of is_all_day: either
the bound method object that the attribute access start.time yields when the
call parentheses are missing, or an actual datetime.time value given as
microseconds of the day. -/
inductive PyTimeVal : Type where
  | boundMethod
  | timeVal : Nat → PyTimeVal
  deriving DecidableEq

/-- Python equality between such values: two time values compare by value,
and a bound method never equals a time value. -/
def pyEqTime : PyTimeVal → PyTimeVal → Bool
  | .timeVal a, .timeVal b => a == b
  | .boundMethod, .boundMethod => true
  | _, _ => false

/-- A Python datetime as a record of its fields plus the attached timezone
name; the model does not validate field ranges or consult a timezone
database. -/
structure PyDateTime where
  year : Nat
  month : Nat
  day : Nat
  hour : Nat
  minute : Nat
  second : Nat
  microsecond : Nat
  tz : PyStr
  deriving DecidableEq

/-- The attribute access d.time without call parentheses, as written in
calendar.py lines 289 and 313: it yields the bound method object, not the
time-of-day value. -/
def timeAttr (_ : PyDateTime) : PyTimeVal := .boundMethod

/-- datetime.time.min as a value: midnight, 0 microseconds of the day. -/
def pyTimeMin : PyTimeVal := .timeVal 0

/-- datetime.time.max as a value: 23:59:59.999999. -/
def pyTimeMax : PyTimeVal := .timeVal 86399999999

/-- Model of EteSyncEvent.is_all_day, calendar.py lines 310-313: the source
compares self.start.time and self.end.time, two bound methods, against the
time values datetime.time.min and datetime.time.max. -/
def is_all_day (s e : PyDateTime) : Bool :=
  pyEqTime (timeAttr s) pyTimeMin && pyEqTime (timeAttr e) pyTimeMax

/-- The time of day of a datetime, in microseconds. -/
def todMicroseconds (d : PyDateTime) : Nat :=
  ((d.hour * 60 + d.minute) * 60 + d.second) * 1000000 + d.microsecond

/-- The all-day test as the spec states it: the rendered duration (given in
whole seconds) is at least 86399 seconds, or the start time of day is
midnight and the end time of day is the maximal time value. -/
def allDaySpec (durSeconds : Int) (s e : PyDateTime) : Bool :=
  decide (86399 ≤ durSeconds) ||
    (todMicroseconds s == 0 && todMicroseconds e == 86399999999)

/-- Python slice s[a:b] on the character list model: clamped at both ends. -/
def strSlice (s : PyStr) (a b : Nat) : PyStr := (s.drop a).take (b - a)

/-- The naive datetime.datetime.min, before a timezone is attached. -/
def pyDatetimeMinNaive : PyDateTime := ⟨1, 1, 1, 0, 0, 0, 0, []⟩

/-- The naive datetime.datetime.max, before a timezone is attached. -/
def pyDatetimeMaxNaive : PyDateTime := ⟨9999, 12, 31, 23, 59, 59, 999999, []⟩

/-- Model of add_timezone, calendar.py lines 111-118: a missing timezone or
the literal value date attaches the module-global default timezone, which
the model passes explicitly; anything else attaches the named timezone.
Timezone-name validity is outside the model. -/
def add_timezone (defaultTz : PyStr) (d : PyDateTime) (tz : Option PyStr) : PyDateTime :=
  match tz with
  | none => { d with tz := defaultTz }
  | some t => if pyLower t = pys "date" then { d with tz := defaultTz } else { d with tz := t }

/-- Model of EteSyncEvent._parse_date_time, calendar.py lines 465-490: an
empty string yields None; a date-only string (the three time slices all
empty) combines the date with time.min for a start and time.max for an end;
otherwise the six slices are converted with int, whose failure on a
malformed slice is ValueError. Calendar-range validation of the fields is
not modelled. -/
def parse_date_time (defaultTz : PyStr) (raw : PyStr) (timezone : Option PyStr)
    (isStart : Bool) : Except PErr (Option PyDateTime) :=
  if raw.isEmpty then .ok none
  else
    let hours := strSlice raw 9 11
    let minutes := strSlice raw 11 13
    let seconds := strSlice raw 13 15
    match pyInt? (strSlice raw 0 4), pyInt? (strSlice raw 4 6), pyInt? (strSlice raw 6 8) with
    | some y, some mo, some d =>
      if hours.isEmpty && minutes.isEmpty && seconds.isEmpty then
        if isStart then
          .ok (some (add_timezone defaultTz ⟨y, mo, d, 0, 0, 0, 0, []⟩ timezone))
        else
          .ok (some (add_timezone defaultTz ⟨y, mo, d, 23, 59, 59, 999999, []⟩ timezone))
      else
        match pyInt? hours, pyInt? minutes, pyInt? seconds with
        | some h, some mi, some s =>
          .ok (some (add_timezone defaultTz ⟨y, mo, d, h, mi, s, 0, []⟩ timezone))
        | _, _, _ => .error .valueError
    | _, _, _ => .error .valueError

/-- Model of EteSyncEvent._get_time, calendar.py lines 461-463, taking the
vevent node directly: the vcalendar and vevent indexing steps above it are
assumed present. -/
def get_time (tree : Node) (name : PyStr) : Option PVal := lookupNode tree name

/-- Model of the EteSyncEvent.start property, calendar.py lines 268-278.
When the dtstart entry is absent, get_time returns None and the attribute
access None.get raises AttributeError; a plain string or list value has no
get attribute either. A dtstart stored as a nested dict can only arise from
an adversarial begin block and is modelled as its dict lookups: a missing
time key raises KeyError and a non-string time value is not modelled
further. When the raw time is empty the source returns datetime.max with
the utc timezone as a sentinel. -/
def startProp (defaultTz : PyStr) (tree : Node) : Except PErr PyDateTime :=
  match get_time tree (pys "dtstart") with
  | none => .error .attributeError
  | some (.str _) => .error .attributeError
  | some (.vlist _) => .error .attributeError
  | some (.timed tz time) =>
    match parse_date_time defaultTz time (some tz) true with
    | .error e => .error e
    | .ok none => .ok (add_timezone defaultTz pyDatetimeMaxNaive (some (pys "utc")))
    | .ok (some t) => .ok t
  | some (.node n) =>
    let tz := match lookupNode n (pys "timezone") with
              | some (.str t) => some t
              | _ => none
    match lookupNode n (pys "time") with
    | some (.str time) =>
      match parse_date_time defaultTz time tz true with
      | .error e => .error e
      | .ok none => .ok (add_timezone defaultTz pyDatetimeMaxNaive (some (pys "utc")))
      | .ok (some t) => .ok t
    | some _ => .error .typeError
    | none => .error .keyError

/-- Model of the EteSyncEvent.end property, calendar.py lines 280-299. When
the dtend entry is absent the source evaluates self.start, compares the
bound method start.time against datetime.time.min (always false, so the
combine-with-time.max branch is dead) and falls back to datetime.min with
the utc timezone; when the raw end time is empty it returns the same min
sentinel. Other value shapes behave as in the start accessor. -/
def endProp (defaultTz : PyStr) (tree : Node) : Except PErr PyDateTime :=
  match get_time tree (pys "dtend") with
  | none =>
    match startProp defaultTz tree with
    | .error e => .error e
    | .ok st =>
      if pyEqTime (timeAttr st) pyTimeMin then
        .ok { st with hour := 23, minute := 59, second := 59, microsecond := 999999 }
      else
        .ok (add_timezone defaultTz pyDatetimeMinNaive (some (pys "utc")))
  | some (.str _) => .error .attributeError
  | some (.vlist _) => .error .attributeError
  | some (.timed tz time) =>
    match parse_date_time defaultTz time (some tz) false with
    | .error e => .error e
    | .ok none => .ok (add_timezone defaultTz pyDatetimeMinNaive (some (pys "utc")))
    | .ok (some t) => .ok t
  | some (.node n) =>
    let tz := match lookupNode n (pys "timezone") with
              | some (.str t) => some t
              | _ => none
    match lookupNode n (pys "time") with
    | some (.str time) =>
      match parse_date_time defaultTz time tz false with
      | .error e => .error e
      | .ok none => .ok (add_timezone defaultTz pyDatetimeMinNaive (some (pys "utc")))
      | .ok (some t) => .ok t
    | some _ => .error .typeError
    | none => .error .keyError

/-- An entry is benign for the rrule sub-parser: whenever the entry would
reach the rrule branch of _parse, every semicolon-separated segment of its
value splits on the equals sign into at least two parts. -/
def entryOkB : Entry → Bool
  | [k0, v] =>
    let k := pyLower k0
    let kv := if pyStartsWith k (pys "dtstart") || pyStartsWith k (pys "dtend")
              then parse_keyed_timezone k v else (k, .str v)
    if kv.1 = pys "rrule" then
      (pySplit ';' v).all (fun seg => decide (2 ≤ (pySplit1 '=' seg).length))
    else true
  | _ => true

/-- Shared helper: _parse_repeating succeeds on a segment list in which
every segment splits on the equals sign into at least two parts. -/
theorem parseRepeatingGo_ok (segs : List PyStr) (res : Node)
    (h : ∀ seg ∈ segs, 2 ≤ (pySplit1 '=' seg).length) :
    ∃ m, parseRepeatingGo segs res = .ok m := by
  induction segs generalizing res with
  | nil => exact ⟨res, rfl⟩
  | cons seg rest ih =>
    have h1 := h seg (List.mem_cons_self _ _)
    have h2 : ∀ s ∈ rest, 2 ≤ (pySplit1 '=' s).length :=
      fun s hs => h s (List.mem_cons_of_mem _ hs)
    match hsp : pySplit1 '=' seg with
    | [] => rw [hsp] at h1; simp at h1
    | [x] => rw [hsp] at h1; simp at h1
    | x :: y :: t =>
      simp only [parseRepeatingGo, hsp]
      exact ih _ h2

/-- Shared helper: parse_repeating succeeds when every semicolon-separated
segment of the value contains an equals sign. -/
theorem parse_repeating_ok (v : PyStr)
    (h : (pySplit ';' v).all (fun seg => decide (2 ≤ (pySplit1 '=' seg).length)) = true) :
    ∃ m, parse_repeating v = .ok m := by
  apply parseRepeatingGo_ok
  intro seg hseg
  exact of_decide_eq_true (List.all_eq_true.mp h seg hseg)

/-- Shared helper: the parse loop never raises when every entry is benign
for the rrule sub-parser, whatever node and scope stack it starts from. -/
theorem parseLoop_ok (entries : List Entry)
    (h : entries.all entryOkB = true) :
    ∀ acc stack, ∃ t, parseLoop entries acc stack = .ok t := by
  induction entries with
  | nil => intro acc stack; exact ⟨_, rfl⟩
  | cons e rest ih =>
    intro acc stack
    rw [List.all_cons, Bool.and_eq_true] at h
    obtain ⟨he, hrest⟩ := h
    match e with
    | [] => simpa only [parseLoop] using ih hrest acc stack
    | [k0] => simpa only [parseLoop] using ih hrest acc stack
    | k0 :: v :: w :: t => simpa only [parseLoop] using ih hrest acc stack
    | [k0, v] =>
      by_cases hb : pyLower k0 = pys "begin"
      · simp only [parseLoop, if_pos hb]
        exact ih hrest _ _
      · by_cases hEnd : pyLower k0 = pys "end"
        · cases stack with
          | nil =>
            simp only [parseLoop, if_neg hb, if_pos hEnd]
            exact ⟨acc, rfl⟩
          | cons top stack2 =>
            obtain ⟨bk, parent⟩ := top
            simp only [parseLoop, if_neg hb, if_pos hEnd]
            exact ih hrest _ _
        · by_cases hr : (if pyStartsWith (pyLower k0) (pys "dtstart")
                            || pyStartsWith (pyLower k0) (pys "dtend")
                         then parse_keyed_timezone (pyLower k0) v
                         else (pyLower k0, PVal.str v)).1 = pys "rrule"
          · have hseg : (pySplit ';' v).all
                (fun seg => decide (2 ≤ (pySplit1 '=' seg).length)) = true := by
              simp only [entryOkB] at he
              rw [if_pos hr] at he
              exact he
            obtain ⟨m, hm⟩ := parse_repeating_ok v hseg
            simp only [parseLoop, if_neg hb, if_neg hEnd, if_pos hr, hm]
            exact ih hrest _ _
          · simp only [parseLoop, if_neg hb, if_neg hEnd, if_neg hr]
            exact ih hrest _ _

/-- C1: the non-recurring range test of EteSyncEvent.is_in_range should be
true exactly when the occurrence interval intersects the query range, but
the source comparisons are inverted and conjoined: for the occurrence
spanning [2020-01-01, 2020-01-02) (seconds 0 to 86400 from that midnight)
and the query range [12:00, 18:00) of the same day, the intervals intersect
while the code returns false; for the non-overlapping query range
[2020-01-02, 2020-01-03) the code also returns false. -/
theorem C1_is_in_range_inverted :
    is_in_range_nonrecurring ⟨0, 86400, false, .unsupported, none⟩ 43200 64800 = false ∧
    overlapsSpec 0 86400 43200 64800 = true ∧
    is_in_range_nonrecurring ⟨0, 86400, false, .unsupported, none⟩ 86400 172800 = false ∧
    overlapsSpec 0 86400 86400 172800 = false := by
  refine ⟨rfl, by decide, rfl, by decide⟩

/-- C2: with occurrences at deltas of minus one hour, zero and plus two
hours around now = 1000000, next_event does return the in-progress event as
the claim says; but an occurrence strictly in the past can be selected: for
a calendar holding only the past occurrence, its delta is -3600 seconds,
its timedelta seconds component is 82800, and next_event returns it. -/
theorem C2_next_event_selects_past :
    delta ⟨996400, 999400, false, .unsupported, none⟩ 1000000 = .ok (-3600) ∧
    delta ⟨999400, 1000600, false, .unsupported, none⟩ 1000000 = .ok 0 ∧
    delta ⟨1003600, 1007200, false, .unsupported, none⟩ 1000000 = .ok 7200 ∧
    next_event [⟨996400, 999400, false, .unsupported, none⟩,
                ⟨999400, 1000600, false, .unsupported, none⟩,
                ⟨1003600, 1007200, false, .unsupported, none⟩] 1000000 =
      .ok (some ⟨999400, 1000600, false, .unsupported, none⟩) ∧
    next_event [⟨996400, 999400, false, .unsupported, none⟩] 1000000 =
      .ok (some ⟨996400, 999400, false, .unsupported, none⟩) := by
  refine ⟨rfl, rfl, rfl, rfl, rfl⟩

/-- C3: for the weekly event starting 2020-06-01T10:00 (36000 seconds from
the June 1 midnight epoch) with duration one hour and recurrence end bound
2020-06-22 end of day (1900799 seconds), queried from 2020-07-01 (2592000
seconds), the recurring scan of delta processes the occurrence starts at
+7, +14, +21 and +28 days, skipping the occurrence at the event start and
running one interval past the end bound, while the expansion the claim
describes yields the starts at +0, +7, +14 and +21 days. -/
theorem C3_recurrence_expansion_misses_first :
    delta ⟨36000, 1900799, true, .weekly, some 3600⟩ 2592000 = .ok (-1951200) ∧
    recurringScan (deltaFuel ⟨36000, 1900799, true, .weekly, some 3600⟩ 2592000)
        604800 (some 3600) 1900799 2592000 36000 tdMin =
      .ok (-1951200, [640800, 1245600, 1850400, 2455200]) ∧
    expandOccurrencesSpec 604800 1900799 36000 = [36000, 640800, 1245600, 1850400] ∧
    ([640800, 1245600, 1850400, 2455200] : List Int) ≠ [36000, 640800, 1245600, 1850400] := by
  refine ⟨rfl, rfl, rfl, by decide⟩

/-- C4: is_all_day compares the bound methods start.time and end.time (the
call parentheses are missing in the source) against the time values
datetime.time.min and datetime.time.max, so it is false for every event; in
particular the event spanning one whole day from midnight to 23:59:59.999999
satisfies both acceptance forms of the spec predicate yet is not recognized. -/
theorem C4_is_all_day_always_false :
    (∀ s e : PyDateTime, is_all_day s e = false) ∧
    allDaySpec 86399 ⟨2020, 6, 1, 0, 0, 0, 0, pys "utc"⟩
      ⟨2020, 6, 1, 23, 59, 59, 999999, pys "utc"⟩ = true ∧
    is_all_day ⟨2020, 6, 1, 0, 0, 0, 0, pys "utc"⟩
      ⟨2020, 6, 1, 23, 59, 59, 999999, pys "utc"⟩ = false :=
  ⟨fun _ _ => rfl, by decide, rfl⟩

/-- C5 counterexample: parsing the timezone-qualified key yields the
timezone europe/amsterdam taken from the lower-cased key, which differs
from the Europe/Amsterdam the claim states. -/
theorem C5_counterexample_timezone_lowercased :
    parse [[pys "DTSTART;TZID=Europe/Amsterdam", pys "20200612T170000"]] =
      .ok [(pys "dtstart", .timed (pys "europe/amsterdam") (pys "20200612T170000"))] ∧
    pys "europe/amsterdam" ≠ pys "Europe/Amsterdam" :=
  ⟨rfl, by decide⟩

/-- C5 amended: _parse lower-cases the key before the dtstart check, so the
key is split on its first semicolon and the timezone id is the suffix after
the last equals sign of the lower-cased key, storing the TimedValue with
timezone europe/amsterdam under dtstart, for any value string. -/
theorem C5_timezone_from_lowercased_key (v : PyStr) :
    parse [[pys "DTSTART;TZID=Europe/Amsterdam", v]] =
      .ok [(pys "dtstart", .timed (pys "europe/amsterdam") v)] := rfl

/-- C6 counterexample: when the first stored value under the key is the
empty string, the second pair overwrites it instead of promoting, so the
three pairs leave the two-element list [v2, v3], not the claimed
three-element list. -/
theorem C6_counterexample_falsy_first_value :
    parse [[pys "k", pys ""], [pys "k", pys "a"], [pys "k", pys "b"]] =
      .ok [(pys "k", .vlist [.str (pys "a"), .str (pys "b")])] ∧
    [PVal.str (pys "a"), PVal.str (pys "b")].length ≠
      [PVal.str (pys ""), PVal.str (pys "a"), PVal.str (pys "b")].length :=
  ⟨rfl, by decide⟩

/-- C6 amended: for a plain data key (not begin, end or rrule and not
dtstart or dtend prefixed) whose first value is truthy (a nonempty string),
parsing the three pairs in order stores the scalar, promotes to a
two-element list on the second pair and appends on the third, leaving the
flat list [v1, v2, v3] in any open scope. -/
theorem C6_repeated_key_promotion (k v1 v2 v3 : PyStr) (stack : List (PyStr × Node))
    (hb : pyLower k ≠ pys "begin") (he : pyLower k ≠ pys "end")
    (hr : pyLower k ≠ pys "rrule")
    (hs : pyStartsWith (pyLower k) (pys "dtstart") = false)
    (hd : pyStartsWith (pyLower k) (pys "dtend") = false)
    (hv : v1 ≠ []) :
    parseLoop [[k, v1], [k, v2], [k, v3]] [] stack =
      .ok (closeStack [(pyLower k, .vlist [.str v1, .str v2, .str v3])] stack) := by
  have hvb : v1.isEmpty = false := by
    cases v1 with
    | nil => exact absurd rfl hv
    | cons a l => rfl
  simp [parseLoop, insertPair, lookupNode, assign, truthy, pyAppendOrPromote,
        hb, he, hr, hs, hd, hvb]

/-- C6 witness: the promotion theorem applied to the key summary and the
values a, b, c at the top-level scope. -/
theorem C6_repeated_key_promotion_witness :
    (pyLower (pys "summary") ≠ pys "begin") ∧
    (pyLower (pys "summary") ≠ pys "end") ∧
    (pyLower (pys "summary") ≠ pys "rrule") ∧
    (pyStartsWith (pyLower (pys "summary")) (pys "dtstart") = false) ∧
    (pyStartsWith (pyLower (pys "summary")) (pys "dtend") = false) ∧
    (pys "a" ≠ ([] : PyStr)) ∧
    parseLoop [[pys "summary", pys "a"], [pys "summary", pys "b"],
               [pys "summary", pys "c"]] [] [] =
      .ok (closeStack [(pyLower (pys "summary"),
        .vlist [.str (pys "a"), .str (pys "b"), .str (pys "c")])] []) :=
  ⟨by decide, by decide, by decide, by decide, by decide, by decide,
   C6_repeated_key_promotion (pys "summary") (pys "a") (pys "b") (pys "c") []
     (by decide) (by decide) (by decide) (by decide) (by decide) (by decide)⟩

/-- C7: every successfully scanned duration collapses to the day total
years times 365 plus weeks times 7 plus days, with months recorded but
excluded, and the seconds total of hours, minutes and seconds; PT3600S is
3600 seconds, P1W is 7 days, P3Y6W4D is 1141 days, the M of P3M counts as
months and contributes nothing to the totals, and the M of PT3M counts as
minutes. -/
theorem C7_duration_parser_totals :
    (∀ (s : PyStr) (acc : DurAcc), scanDuration s = .ok acc →
      parse_iso8601_duration (some s) =
        .ok (some (acc.years * 365 + acc.weeks * 7 + acc.days,
                   acc.hours * 60 * 60 + acc.minutes * 60 + acc.seconds))) ∧
    parse_iso8601_duration (some (pys "PT3600S")) = .ok (some (0, 3600)) ∧
    parse_iso8601_duration (some (pys "P1W")) = .ok (some (7, 0)) ∧
    parse_iso8601_duration (some (pys "P3Y6W4D")) = .ok (some (1141, 0)) ∧
    scanDuration (pys "P3M") = .ok ⟨0, 3, 0, 0, 0, 0, 0, true, []⟩ ∧
    parse_iso8601_duration (some (pys "P3M")) = .ok (some (0, 0)) ∧
    parse_iso8601_duration (some (pys "PT3M")) = .ok (some (0, 180)) := by
  refine ⟨?_, rfl, rfl, rfl, rfl, rfl, rfl⟩
  intro s acc h
  simp [parse_iso8601_duration, h]

/-- C7 witness: the totals statement applied to the duration P2Y. -/
theorem C7_duration_parser_totals_witness :
    scanDuration (pys "P2Y") = .ok ⟨2, 0, 0, 0, 0, 0, 0, true, []⟩ ∧
    parse_iso8601_duration (some (pys "P2Y")) = .ok (some (730, 0)) :=
  ⟨rfl, C7_duration_parser_totals.1 (pys "P2Y") ⟨2, 0, 0, 0, 0, 0, 0, true, []⟩ rfl⟩

/-- C8: for an event tree with no dtstart entry the start accessor raises
AttributeError (get_time returns None and None.get is accessed) instead of
returning a sentinel; for a tree with a valid dtstart and no dtend the end
accessor does return the datetime.min sentinel localized to utc, whatever
the configured default timezone. -/
theorem C8_missing_dtstart_raises :
    (∀ dtz : PyStr, startProp dtz [] = .error .attributeError) ∧
    (∀ dtz : PyStr,
      endProp dtz [(pys "dtstart", PVal.timed (pys "Europe/Amsterdam")
          (pys "20200612T170000"))] =
        .ok ⟨1, 1, 1, 0, 0, 0, 0, pys "utc"⟩) :=
  ⟨fun _ => rfl, fun _ => rfl⟩

/-- C9 counterexample: an rrule entry whose value contains no equals sign
makes parse raise IndexError, so parse is not total on all finite inputs. -/
theorem C9_counterexample_rrule_raises :
    parse [[pys "rrule", pys "weekly"]] = .error .indexError := rfl

/-- C9 amended: parse returns a property tree without raising provided
every rrule entry value has an equals sign in each semicolon-separated
segment; entries that are not exactly two elements are skipped unchanged;
and input ending inside an unterminated begin scope returns the node
accumulated so far at each open nesting level. -/
theorem C9_parse_total_amended :
    (∀ entries : List Entry, entries.all entryOkB = true →
      ∃ t, parse entries = .ok t) ∧
    (∀ (e : Entry) (rest : List Entry) (acc : Node) (stack : List (PyStr × Node)),
      e.length ≠ 2 → parseLoop (e :: rest) acc stack = parseLoop rest acc stack) ∧
    parse [[pys "begin", pys "X"], [pys "k", pys "v"]] =
      .ok [(pys "x", .node [(pys "k", .str (pys "v"))])] := by
  refine ⟨fun entries h => parseLoop_ok entries h [] [], ?_, rfl⟩
  intro e rest acc stack hlen
  match e with
  | [] => rfl
  | [a] => rfl
  | [a, b] => exact absurd rfl hlen
  | a :: b :: c :: t => rfl

/-- C9 witness: the totality statement applied to a single well-formed
rrule entry, and the skip statement applied to a one-element entry. -/
theorem C9_parse_total_amended_witness :
    ([[pys "rrule", pys "freq=weekly"]].all entryOkB = true) ∧
    (∃ t, parse [[pys "rrule", pys "freq=weekly"]] = .ok t) ∧
    (([pys "x"] : Entry).length ≠ 2) ∧
    parseLoop [[pys "x"], [pys "a", pys "b"]] [] [] =
      parseLoop [[pys "a", pys "b"]] [] [] :=
  ⟨by decide, C9_parse_total_amended.1 [[pys "rrule", pys "freq=weekly"]] (by decide),
   by decide, C9_parse_total_amended.2.1 [pys "x"] [[pys "a", pys "b"]] [] [] (by decide)⟩

/-- C10: the promotion branch of _parse is guarded by the truthiness of
result.get(key), not by its presence: whenever the stored value is falsy
the new value overwrites the slot by plain assignment, so a first pair
storing the empty string is overwritten by the second pair, while a truthy
first value is promoted to a two-element list. -/
theorem C10_falsy_slot_overwritten :
    (∀ (res : Node) (k : PyStr) (v : PVal), truthy (lookupNode res k) = false →
      insertPair res k v = assign res k v) ∧
    (∀ v2 : PyStr, parse [[pys "k", pys ""], [pys "k", v2]] =
      .ok [(pys "k", .str v2)]) ∧
    (∀ v2 : PyStr, parse [[pys "k", pys "x"], [pys "k", v2]] =
      .ok [(pys "k", .vlist [.str (pys "x"), .str v2])]) := by
  refine ⟨?_, fun _ => rfl, fun _ => rfl⟩
  intro res k v h
  unfold insertPair
  match hl : lookupNode res k with
  | none => rfl
  | some old =>
    rw [hl] at h
    simp [h]

/-- C10 witness: the overwrite statement applied to a node holding the
empty string under the key. -/
theorem C10_falsy_slot_overwritten_witness :
    truthy (lookupNode [(pys "k", PVal.str (pys ""))] (pys "k")) = false ∧
    insertPair [(pys "k", PVal.str (pys ""))] (pys "k") (PVal.str (pys "b")) =
      assign [(pys "k", PVal.str (pys ""))] (pys "k") (PVal.str (pys "b")) :=
  ⟨rfl, C10_falsy_slot_overwritten.1 [(pys "k", PVal.str (pys ""))] (pys "k")
    (PVal.str (pys "b")) rfl⟩
